import Mathlib

/-!
Shallow embedding of `stopwatch-rs` (src/src/lib.rs).

Instants of the monotonic clock (`tokio::time::Instant`) are modelled as
natural numbers of nanoseconds since an arbitrary epoch; `Duration` is a
natural number of nanoseconds.  Every operation that reads the clock in the
Rust source (`Instant::now()` / `Instant::elapsed()`) takes the current
clock reading `now : Instant` as an explicit argument.  `t1.elapsed()` is
`now - t1` with truncated (saturating) subtraction, matching tokio's
saturating `Instant` subtraction.
-/

abbrev Instant := Nat

abbrev Duration := Nat

/-- `Duration::as_millis`: the whole number of milliseconds of a duration
given in nanoseconds. -/
def Duration.as_millis (d : Duration) : Nat := d / 1000000

/-- The `Stopwatch` struct: `start_time`, `last_split`, `elapsed`. -/
structure Stopwatch where
  start_time : Option Instant
  last_split : Option Instant
  elapsed : Duration
deriving DecidableEq, Repr

/-- `Default for Stopwatch`: no start time, no split, zero elapsed. -/
def Stopwatch.default : Stopwatch :=
  { start_time := none, last_split := none, elapsed := 0 }

/-- `Stopwatch::new`: returns an instance with default values. -/
def Stopwatch.new : Stopwatch := Stopwatch.default

/-- `Stopwatch::start`: begins the timing at clock reading `now`. -/
def Stopwatch.start (now : Instant) (s : Stopwatch) : Stopwatch :=
  { s with start_time := some now, last_split := none, elapsed := 0 }

/-- `Stopwatch::start_new`: a default instance, started at `now`. -/
def Stopwatch.start_new (now : Instant) : Stopwatch :=
  Stopwatch.default.start now

/-- `Stopwatch::stop`: halts the timing; returns the updated stopwatch and
the returned `Duration`. -/
def Stopwatch.stop (now : Instant) (s : Stopwatch) : Stopwatch × Duration :=
  match s.start_time with
  | some t1 =>
      ({ start_time := none, last_split := none, elapsed := now - t1 },
       now - t1)
  | none => (s, 0)

/-- `Stopwatch::reset`: resets all values to default. -/
def Stopwatch.reset (_s : Stopwatch) : Stopwatch :=
  Stopwatch.default

/-- `Stopwatch::restart`: resets values to default and starts timing again
at clock reading `now`. -/
def Stopwatch.restart (now : Instant) (_s : Stopwatch) : Stopwatch :=
  (Stopwatch.default).start now

/-- `Stopwatch::split`: records the elapsed time at `now` without stopping;
returns the updated stopwatch and the returned `Option<Duration>`. -/
def Stopwatch.split (now : Instant) (s : Stopwatch) :
    Stopwatch × Option Duration :=
  match s.start_time with
  | some t1 =>
      ({ s with last_split := some now, elapsed := now - t1 },
       some (now - t1))
  | none => (s, none)

/-- `Display for Stopwatch`: renders `"{}ms"` applied to
`self.elapsed.as_millis()`. -/
def Stopwatch.display (s : Stopwatch) : String :=
  toString (Duration.as_millis s.elapsed) ++ "ms"

/-- One invocation of a public mutating operation, tagged with the clock
reading the operation observes (when it reads the clock). -/
inductive Op where
  | op_start (now : Instant)
  | op_stop (now : Instant)
  | op_reset
  | op_restart (now : Instant)
  | op_split (now : Instant)
deriving DecidableEq, Repr

/-- Apply one public operation to a stopwatch (discarding return values). -/
def Stopwatch.apply (s : Stopwatch) : Op → Stopwatch
  | Op.op_start now => s.start now
  | Op.op_stop now => (s.stop now).1
  | Op.op_reset => s.reset
  | Op.op_restart now => s.restart now
  | Op.op_split now => (s.split now).1

/-- Run a sequence of public operations from an initial state. -/
def Stopwatch.run (s : Stopwatch) (ops : List Op) : Stopwatch :=
  ops.foldl Stopwatch.apply s

/-- The invariant of claim C6: a split record only exists in a running
state. -/
def Stopwatch.inv (s : Stopwatch) : Bool :=
  s.last_split.isNone || s.start_time.isSome

lemma Stopwatch.inv_apply (s : Stopwatch) (op : Op) (h : s.inv = true) :
    (s.apply op).inv = true := by
  cases op with
  | op_start now => simp [Stopwatch.apply, Stopwatch.start, Stopwatch.inv]
  | op_stop now =>
      cases hst : s.start_time with
      | none => simpa [Stopwatch.apply, Stopwatch.stop, hst] using h
      | some t1 => simp [Stopwatch.apply, Stopwatch.stop, hst, Stopwatch.inv]
  | op_reset =>
      simp [Stopwatch.apply, Stopwatch.reset, Stopwatch.default, Stopwatch.inv]
  | op_restart now =>
      simp [Stopwatch.apply, Stopwatch.restart, Stopwatch.start,
        Stopwatch.default, Stopwatch.inv]
  | op_split now =>
      cases hst : s.start_time with
      | none => simpa [Stopwatch.apply, Stopwatch.split, hst] using h
      | some t1 =>
          simp [Stopwatch.apply, Stopwatch.split, hst, Stopwatch.inv]

lemma Stopwatch.inv_run (s : Stopwatch) (ops : List Op) (h : s.inv = true) :
    (s.run ops).inv = true := by
  induction ops generalizing s with
  | nil => simpa [Stopwatch.run] using h
  | cons op ops ih =>
      simpa [Stopwatch.run, List.foldl_cons] using
        ih (s.apply op) (Stopwatch.inv_apply s op h)

/-- C1: for every stopwatch whose `start_time` is present, `stop` at clock
reading `now` sets `elapsed` to `now - start_time`, clears `start_time` and
`last_split`, and returns exactly the duration stored in `elapsed`. -/
theorem stop_running_spec (s : Stopwatch) (now t1 : Instant)
    (h : s.start_time = some t1) :
    (s.stop now).1.elapsed = now - t1 ∧
    (s.stop now).1.start_time = none ∧
    (s.stop now).1.last_split = none ∧
    (s.stop now).2 = (s.stop now).1.elapsed := by
  simp [Stopwatch.stop, h]

theorem stop_running_spec_witness :
    (Stopwatch.mk (some 3) (some 5) 7).start_time = some 3 ∧
    ((Stopwatch.mk (some 3) (some 5) 7).stop 10).1.elapsed = 10 - 3 ∧
    ((Stopwatch.mk (some 3) (some 5) 7).stop 10).1.start_time = none ∧
    ((Stopwatch.mk (some 3) (some 5) 7).stop 10).1.last_split = none ∧
    ((Stopwatch.mk (some 3) (some 5) 7).stop 10).2 =
      ((Stopwatch.mk (some 3) (some 5) 7).stop 10).1.elapsed :=
  ⟨rfl, stop_running_spec (Stopwatch.mk (some 3) (some 5) 7) 10 3 rfl⟩

/-- C2: for every stopwatch whose `start_time` is present, `split` at clock
reading `now` sets `last_split` to `now`, sets `elapsed` to
`now - start_time`, leaves `start_time` unchanged, and returns the new
`elapsed` as a present value. -/
theorem split_running_spec (s : Stopwatch) (now t1 : Instant)
    (h : s.start_time = some t1) :
    (s.split now).1.last_split = some now ∧
    (s.split now).1.elapsed = now - t1 ∧
    (s.split now).1.start_time = s.start_time ∧
    (s.split now).2 = some (s.split now).1.elapsed := by
  simp [Stopwatch.split, h]

theorem split_running_spec_witness :
    (Stopwatch.mk (some 2) none 9).start_time = some 2 ∧
    ((Stopwatch.mk (some 2) none 9).split 6).1.last_split = some 6 ∧
    ((Stopwatch.mk (some 2) none 9).split 6).1.elapsed = 6 - 2 ∧
    ((Stopwatch.mk (some 2) none 9).split 6).1.start_time =
      (Stopwatch.mk (some 2) none 9).start_time ∧
    ((Stopwatch.mk (some 2) none 9).split 6).2 =
      some ((Stopwatch.mk (some 2) none 9).split 6).1.elapsed :=
  ⟨rfl, split_running_spec (Stopwatch.mk (some 2) none 9) 6 2 rfl⟩

/-- C3: for every stopwatch whose `start_time` is absent, `stop` returns a
zero duration and `split` returns an absent value, and neither changes any
field. -/
theorem stopped_noop_spec (s : Stopwatch) (now : Instant)
    (h : s.start_time = none) :
    (s.stop now).1 = s ∧ (s.stop now).2 = 0 ∧
    (s.split now).1 = s ∧ (s.split now).2 = none := by
  refine ⟨?_, ?_, ?_, ?_⟩ <;> simp [Stopwatch.stop, Stopwatch.split, h]

theorem stopped_noop_spec_witness :
    (Stopwatch.mk none none 42).start_time = none ∧
    ((Stopwatch.mk none none 42).stop 7).1 = Stopwatch.mk none none 42 ∧
    ((Stopwatch.mk none none 42).stop 7).2 = 0 ∧
    ((Stopwatch.mk none none 42).split 7).1 = Stopwatch.mk none none 42 ∧
    ((Stopwatch.mk none none 42).split 7).2 = none :=
  ⟨rfl, stopped_noop_spec (Stopwatch.mk none none 42) 7 rfl⟩

/-- C4: in any state, `start` at clock reading `now` sets `start_time` to
`now`, clears `last_split`, and resets `elapsed` to zero, discarding any
previously accumulated elapsed value. -/
theorem start_spec (s : Stopwatch) (now : Instant) :
    s.start now = Stopwatch.mk (some now) none 0 := rfl

/-- C5: in any state, `reset` yields exactly the freshly constructed zeroed
instance: `start_time` absent, `last_split` absent, `elapsed` zero. -/
theorem reset_spec (s : Stopwatch) :
    s.reset = Stopwatch.new ∧ Stopwatch.new = Stopwatch.mk none none 0 :=
  ⟨rfl, rfl⟩

/-- C6: every state reachable from `new` or from `start_new` by any
sequence of the public operations satisfies the invariant: if `last_split`
is present then `start_time` is present. -/
theorem reachable_inv_spec (ops : List Op) (now : Instant) :
    (Stopwatch.new.run ops).inv = true ∧
    ((Stopwatch.start_new now).run ops).inv = true :=
  ⟨Stopwatch.inv_run Stopwatch.new ops rfl,
   Stopwatch.inv_run (Stopwatch.start_new now) ops rfl⟩

/-- C7: for a running stopwatch, two successive splits in the same running
interval, taken at non-decreasing clock readings, return durations with the
later one greater than or equal to the earlier one. -/
theorem split_monotone_spec (s : Stopwatch) (t1 now1 now2 : Instant)
    (h : s.start_time = some t1) (hle : now1 ≤ now2) :
    ∃ d1 d2, (s.split now1).2 = some d1 ∧
      ((s.split now1).1.split now2).2 = some d2 ∧ d1 ≤ d2 := by
  refine ⟨now1 - t1, now2 - t1, ?_, ?_, Nat.sub_le_sub_right hle t1⟩ <;>
    simp [Stopwatch.split, h]

theorem split_monotone_spec_witness :
    (Stopwatch.mk (some 1) none 0).start_time = some 1 ∧ (4 : Instant) ≤ 9 ∧
    ∃ d1 d2, ((Stopwatch.mk (some 1) none 0).split 4).2 = some d1 ∧
      (((Stopwatch.mk (some 1) none 0).split 4).1.split 9).2 = some d2 ∧
      d1 ≤ d2 :=
  ⟨rfl, by decide,
   split_monotone_spec (Stopwatch.mk (some 1) none 0) 1 4 9 rfl (by decide)⟩

/-- C8: after `restart` at clock reading `now`, `start_time` is present and
equal to `now` and `last_split` is absent; under a strictly increasing
monotonic clock every previously captured start instant `t` satisfies
`t < now`, and then the new `start_time` differs from `some t`. -/
theorem restart_fresh_spec (s : Stopwatch) (now t : Instant) (h : t < now) :
    (s.restart now).start_time = some now ∧
    (s.restart now).last_split = none ∧
    (s.restart now).start_time ≠ some t := by
  refine ⟨rfl, rfl, fun hc => ?_⟩
  exact absurd (Option.some.inj hc).symm (Nat.ne_of_lt h)

theorem restart_fresh_spec_witness :
    (2 : Instant) < 5 ∧
    ((Stopwatch.mk (some 2) (some 3) 8).restart 5).start_time = some 5 ∧
    ((Stopwatch.mk (some 2) (some 3) 8).restart 5).last_split = none ∧
    ((Stopwatch.mk (some 2) (some 3) 8).restart 5).start_time ≠ some 2 :=
  ⟨by decide,
   restart_fresh_spec (Stopwatch.mk (some 2) (some 3) 8) 5 2 (by decide)⟩

/-- C9: the textual rendering of any stopwatch is the decimal numeral of
the whole-millisecond count of the stored `elapsed` field immediately
followed by the literal suffix `"ms"`, and it depends only on `elapsed`
(not on whether the stopwatch is running). -/
theorem display_spec (s t : Stopwatch) (h : t.elapsed = s.elapsed) :
    s.display = Nat.repr (s.elapsed / 1000000) ++ "ms" ∧
    t.display = s.display := by
  constructor
  · rfl
  · simp [Stopwatch.display, h]

theorem display_spec_witness :
    (Stopwatch.mk none none 1500000000).elapsed =
      (Stopwatch.mk (some 7) (some 9) 1500000000).elapsed ∧
    (Stopwatch.mk (some 7) (some 9) 1500000000).display = "1500ms" ∧
    (Stopwatch.mk none none 1500000000).display =
      (Stopwatch.mk (some 7) (some 9) 1500000000).display := by
  have h := display_spec (Stopwatch.mk (some 7) (some 9) 1500000000)
    (Stopwatch.mk none none 1500000000) rfl
  exact ⟨rfl, by rw [h.1]; rfl, h.2⟩

/-- C10: for the same clock reading, `restart` produces exactly the same
resulting state as `start` alone, from every starting state: the two are
extensionally equal as state transformers. -/
theorem restart_eq_start_spec (s : Stopwatch) (now : Instant) :
    s.restart now = s.start now := rfl

theorem restart_eq_start_spec_witness :
    (Stopwatch.mk (some 1) (some 2) 3).restart 4 =
      (Stopwatch.mk (some 1) (some 2) 3).start 4 :=
  restart_eq_start_spec (Stopwatch.mk (some 1) (some 2) 3) 4
